import Mathlib

/-!
Shallow embedding of the scenario generator and availability oracle of the
table-booking experiment (src/src/lib/dataGenerator.ts) together with the
data model of src/src/lib/types.ts.

Randomness: every call of the form `Math.floor(Math.random() * n)` in the
source draws a value uniformly from {0, …, n-1}.  We model the random source
as a list of natural numbers (`RNG`); each draw takes the head modulo `n`
(which ranges over exactly {0, …, n-1} for `n > 0`, as the JavaScript draw
does) and passes the tail on.  The Boolean coin `Math.random() > 0.5` is a
draw with `n = 2`.  All theorems quantify over every random list, hence over
every possible draw sequence of the program.

Times: the source manipulates times as "HH:MM" strings; we embed them as
`String` with the same split/parse/format operations, defined by structural
recursion over the character list so that they evaluate inside the kernel.
-/

/-- The random source: the stream of values already produced by
`Math.floor(Math.random() * n)` draws. -/
abbrev RNG : Type := List Nat

/-- One draw of `Math.floor(Math.random() * n)`: a value in `{0, …, n-1}`
(for `n > 0`), consuming one element of the stream. -/
def drawNat (g : RNG) (n : Nat) : Nat × RNG :=
  (List.headD g 0 % n, List.tail g)

/-- `TableShape` of types.ts. -/
inductive TableShape where
  | circle : TableShape
  | square : TableShape
deriving DecidableEq, Repr

/-- `Table` of types.ts. -/
structure Table where
  id : Nat
  shape : TableShape
  capacity : Nat
deriving DecidableEq, Repr

/-- `BookingSlot` of types.ts: a half-open interval `[startTime, endTime)`
attached to a table id. -/
structure BookingSlot where
  tableId : Nat
  startTime : String
  endTime : String
deriving DecidableEq, Repr

/-- `Prompt` of types.ts. -/
structure Prompt where
  partySize : Nat
  time : String
  displayTime : String
deriving DecidableEq, Repr

/-- The display-mode flag `'coloured' | 'text'`. -/
inductive SystemType where
  | coloured : SystemType
  | text : SystemType
deriving DecidableEq, Repr

/-- `ExperimentData` of types.ts. -/
structure ExperimentData where
  systemType : SystemType
  bookings : List BookingSlot
  tables : List Table
  prompt : Prompt
deriving Repr

/-- Character-level worker for `time.split(':')`. -/
def splitColonCore : List Char → List Char → List String
  | [], acc => [String.mk acc.reverse]
  | c :: cs, acc =>
      if c = ':' then String.mk acc.reverse :: splitColonCore cs []
      else splitColonCore cs (c :: acc)

/-- `time.split(':')` of the source. -/
def splitColon (s : String) : List String :=
  splitColonCore s.toList []

/-- JavaScript `Number(...)` on the (well-formed, all-digit) numeric strings
the generator produces: decimal value of the digits. -/
def parseNat (s : String) : Nat :=
  s.toList.foldl (fun acc c => acc * 10 + (c.toNat - '0'.toNat)) 0

/-- `timeToMinutes` of dataGenerator.ts: `hours * 60 + mins` after splitting
on ':'. -/
def timeToMinutes (time : String) : Nat :=
  let parts := splitColon time
  parseNat (parts.headD "") * 60 + parseNat (parts.getD 1 "")

/-- `String(n).padStart(2, '0')` of the source. -/
def padTwo (n : Nat) : String :=
  let s := toString n
  if s.length < 2 then "0" ++ s else s

/-- `addMinutes` of dataGenerator.ts: add `minutes`, wrap the hour modulo 24,
render zero-padded "HH:MM". -/
def addMinutes (time : String) (minutes : Nat) : String :=
  let parts := splitColon time
  let hours := parseNat (parts.headD "")
  let mins := parseNat (parts.getD 1 "")
  let totalMinutes := hours * 60 + mins + minutes
  let newHours := (totalMinutes / 60) % 24
  let newMins := totalMinutes % 60
  padTwo newHours ++ ":" ++ padTwo newMins

/-- `timesOverlap` of dataGenerator.ts: half-open intervals overlap iff
`s1 < e2 && s2 < e1` on minute counts. -/
def timesOverlap (start1 end1 start2 end2 : String) : Bool :=
  let s1 := timeToMinutes start1
  let e1 := timeToMinutes end1
  let s2 := timeToMinutes start2
  let e2 := timeToMinutes end2
  decide (s1 < e2) && decide (s2 < e1)

/-- `AVAILABLE_TIMES` of dataGenerator.ts. -/
def AVAILABLE_TIMES : List String :=
  ["17:00", "17:30", "18:00", "18:30", "19:00", "19:30", "20:00", "20:30", "21:00"]

/-- `isTableAvailable` of dataGenerator.ts. -/
def isTableAvailable (tableId : Nat) (selectedTime : String)
    (bookings : List BookingSlot) : Bool :=
  let endTime := addMinutes selectedTime 90
  !(bookings.any fun booking =>
      booking.tableId == tableId &&
      timesOverlap selectedTime endTime booking.startTime booking.endTime)

/-- The swap `[tables[i], tables[j]] = [tables[j], tables[i]]` of the
Fisher-Yates loop in `generateTables`. -/
def listSwap {α : Type} (l : List α) (i j : Nat) : List α :=
  match l[i]?, l[j]? with
  | some a, some b => (l.set i b).set j a
  | _, _ => l

/-- The shuffle loop of `generateTables`:
`for (i = length-1; i > 0; i--) { j = floor(random*(i+1)); swap i j }`,
here recursing on the loop index `i`. -/
def shuffleFrom {α : Type} : Nat → List α → RNG → List α × RNG
  | 0, l, g => (l, g)
  | Nat.succ k, l, g =>
      let p := drawNat g (k + 2)
      shuffleFrom k (listSwap l (k + 1) p.1) p.2

/-- The two push loops of `generateTables`: `count` consecutive tables of
capacity `cap` starting at id `startId`, each with an independently drawn
shape (`Math.random() > 0.5 ? 'circle' : 'square'`). -/
def mkTables (cap : Nat) : Nat → Nat → RNG → List Table × RNG
  | _, 0, g => ([], g)
  | startId, Nat.succ n, g =>
      let p := drawNat g 2
      let shape := if p.1 = 1 then TableShape.circle else TableShape.square
      let rest := mkTables cap (startId + 1) n p.2
      (⟨startId, shape, cap⟩ :: rest.1, rest.2)

/-- `generateTables` of dataGenerator.ts: 4-8 four-person tables, the
remaining of twelve six-person, ids counting from 1, then a Fisher-Yates
shuffle. -/
def generateTables (g : RNG) : List Table × RNG :=
  let p := drawNat g 5
  let numFourPerson := 4 + p.1
  let numSixPerson := 12 - numFourPerson
  let q := mkTables 4 1 numFourPerson p.2
  let r := mkTables 6 (1 + numFourPerson) numSixPerson q.2
  let tables := q.1 ++ r.1
  shuffleFrom (tables.length - 1) tables r.2

/-- `formatTimeForDisplay` of dataGenerator.ts. -/
def formatTimeForDisplay (time24 : String) : String :=
  let parts := splitColon time24
  let hours := parseNat (parts.headD "")
  let minutes := parseNat (parts.getD 1 "")
  let period := if hours ≥ 12 then "PM" else "AM"
  let displayHour := if hours > 12 then hours - 12 else if hours = 0 then 12 else hours
  if minutes = 0 then toString displayHour ++ period
  else toString displayHour ++ ":" ++ toString minutes ++ period

/-- `generateRandomPrompt` of dataGenerator.ts: party size from `[4, 6]`,
time from `AVAILABLE_TIMES`, both uniform. -/
def generateRandomPrompt (g : RNG) : Prompt × RNG :=
  let partySizes : List Nat := [4, 6]
  let p := drawNat g partySizes.length
  let partySize := partySizes.getD p.1 0
  let q := drawNat p.2 AVAILABLE_TIMES.length
  let time := AVAILABLE_TIMES.getD q.1 ""
  (⟨partySize, time, formatTimeForDisplay time⟩, q.2)

/-- The inner `for (i = 0; i < numBookings && availableSlots.length > 0; i++)`
loop of `generateExperimentData` for one table: sample a slot without
replacement, and push the 90-minute booking — unconditionally for ordinary
tables, only when it does not overlap the prompt interval for the table
whose id equals the guaranteed table's id. -/
def genBookingsForTable (tid gid : Nat) (promptTime : String) :
    Nat → List String → RNG → List BookingSlot × RNG
  | 0, _, g => ([], g)
  | Nat.succ n, slots, g =>
      if slots.isEmpty then ([], g)
      else
        let p := drawNat g slots.length
        let time := slots.getD p.1 ""
        let slots2 := slots.eraseIdx p.1
        let bookingEnd := addMinutes time 90
        let rest := genBookingsForTable tid gid promptTime n slots2 p.2
        if tid = gid then
          let promptEnd := addMinutes promptTime 90
          if timesOverlap time bookingEnd promptTime promptEnd then rest
          else (⟨tid, time, bookingEnd⟩ :: rest.1, rest.2)
        else (⟨tid, time, bookingEnd⟩ :: rest.1, rest.2)

/-- The `tables.forEach(...)` loop of `generateExperimentData`: for each
table draw `numBookings` in 0-3 and run the per-table sampling loop on a
fresh copy of `AVAILABLE_TIMES`. -/
def genAllBookings (gid : Nat) (promptTime : String) :
    List Table → RNG → List BookingSlot × RNG
  | [], g => ([], g)
  | t :: ts, g =>
      let p := drawNat g 4
      let q := genBookingsForTable t.id gid promptTime p.1 AVAILABLE_TIMES p.2
      let r := genAllBookings gid promptTime ts q.2
      (q.1 ++ r.1, r.2)

/-- Fallback for the (never reached) out-of-bounds index into
`suitableTables`. -/
def defaultTable : Table := ⟨0, TableShape.square, 0⟩

/-- `generateExperimentData` of dataGenerator.ts. -/
def generateExperimentData (systemType : SystemType) (g : RNG) : ExperimentData :=
  let p := generateTables g
  let tables := p.1
  let q := generateRandomPrompt p.2
  let prompt := q.1
  let suitableTables := tables.filter fun table => table.capacity == prompt.partySize
  let r := drawNat q.2 suitableTables.length
  let guaranteedAvailableTable := suitableTables.getD r.1 defaultTable
  let s := genAllBookings guaranteedAvailableTable.id prompt.time tables r.2
  ⟨systemType, s.1, tables, prompt⟩

/-! ## Helper lemmas -/

theorem drawNat_lt (g : RNG) (n : Nat) (h : 0 < n) : (drawNat g n).1 < n :=
  Nat.mod_lt _ h

theorem getD_mem_of_lt {α : Type} (l : List α) (i : Nat) (d : α)
    (h : i < l.length) : l.getD i d ∈ l := by
  rw [List.getD_eq_getElem?_getD, List.getElem?_eq_getElem h]
  exact List.getElem_mem h

theorem cons_set_perm {α : Type} :
    ∀ (t : List α) (k : Nat) (a b : α), t[k]? = some b →
      List.Perm (b :: t.set k a) (a :: t)
  | [], _, _, _, h => by simp at h
  | x :: xs, 0, a, b, h => by
      simp only [List.getElem?_cons_zero, Option.some.injEq] at h
      subst h
      exact List.Perm.swap a x xs
  | x :: xs, k + 1, a, b, h => by
      simp only [List.getElem?_cons_succ] at h
      have ih := cons_set_perm xs k a b h
      have s1 : List.Perm (b :: x :: xs.set k a) (x :: b :: xs.set k a) :=
        List.Perm.swap x b (xs.set k a)
      have s2 : List.Perm (x :: b :: xs.set k a) (x :: a :: xs) := ih.cons x
      have s3 : List.Perm (x :: a :: xs) (a :: x :: xs) := List.Perm.swap a x xs
      exact (s1.trans s2).trans s3

theorem listSwap_perm {α : Type} :
    ∀ (l : List α) (i j : Nat), List.Perm (listSwap l i j) l
  | [], i, j => by
      simp [listSwap]
  | x :: xs, 0, 0 => by
      simp [listSwap]
  | x :: xs, 0, j + 1 => by
      cases h : xs[j]? with
      | none => simp [listSwap, h]
      | some b =>
          have hs : listSwap (x :: xs) 0 (j + 1) = b :: xs.set j x := by
            simp [listSwap, h]
          rw [hs]
          exact cons_set_perm xs j x b h
  | x :: xs, i + 1, 0 => by
      cases h : xs[i]? with
      | none => simp [listSwap, h]
      | some a =>
          have hs : listSwap (x :: xs) (i + 1) 0 = a :: xs.set i x := by
            simp [listSwap, h]
          rw [hs]
          exact cons_set_perm xs i x a h
  | x :: xs, i + 1, j + 1 => by
      cases h1 : xs[i]? with
      | none => simp [listSwap, h1]
      | some a =>
          cases h2 : xs[j]? with
          | none => simp [listSwap, h1, h2]
          | some b =>
              have hs : listSwap (x :: xs) (i + 1) (j + 1) =
                  x :: (xs.set i b).set j a := by
                simp [listSwap, h1, h2]
              have hs2 : listSwap xs i j = (xs.set i b).set j a := by
                simp [listSwap, h1, h2]
              rw [hs, ← hs2]
              exact (listSwap_perm xs i j).cons x

theorem shuffleFrom_perm {α : Type} :
    ∀ (n : Nat) (l : List α) (g : RNG), List.Perm (shuffleFrom n l g).1 l
  | 0, l, _ => List.Perm.refl l
  | Nat.succ k, l, g => by
      have ih := shuffleFrom_perm k (listSwap l (k + 1) (drawNat g (k + 2)).1)
        (drawNat g (k + 2)).2
      exact ih.trans (listSwap_perm l (k + 1) (drawNat g (k + 2)).1)

theorem mkTables_map_id (cap : Nat) :
    ∀ (n startId : Nat) (g : RNG),
      ((mkTables cap startId n g).1).map Table.id = List.range' startId n
  | 0, _, _ => rfl
  | Nat.succ n, s, g => by
      have ih := mkTables_map_id cap n (s + 1) (drawNat g 2).2
      simp [mkTables, ih, List.range'_succ]

theorem mkTables_capacity (cap : Nat) :
    ∀ (n startId : Nat) (g : RNG) (t : Table),
      t ∈ (mkTables cap startId n g).1 → t.capacity = cap
  | 0, _, _, _, h => by simp [mkTables] at h
  | Nat.succ n, s, g, t, h => by
      simp only [mkTables, List.mem_cons] at h
      rcases h with h | h
      · rw [h]
      · exact mkTables_capacity cap n (s + 1) (drawNat g 2).2 t h

theorem mkTables_length (cap n startId : Nat) (g : RNG) :
    ((mkTables cap startId n g).1).length = n := by
  have h := congrArg List.length (mkTables_map_id cap n startId g)
  simpa using h

/-- The table list returned by `generateTables` is a permutation of the
pre-shuffle list: the four-person block followed by the six-person block. -/
theorem generateTables_spec (g : RNG) :
    List.Perm (generateTables g).1
      ((mkTables 4 1 (4 + (List.headD g 0 % 5)) (List.tail g)).1 ++
       (mkTables 6 (1 + (4 + (List.headD g 0 % 5))) (12 - (4 + (List.headD g 0 % 5)))
          (mkTables 4 1 (4 + (List.headD g 0 % 5)) (List.tail g)).2).1) :=
  shuffleFrom_perm _ _ _

theorem generateTables_filter4 (g : RNG) :
    (((generateTables g).1).filter fun t => t.capacity == 4).length =
      4 + List.headD g 0 % 5 := by
  have hp := (generateTables_spec g).filter (fun t => t.capacity == 4)
  rw [hp.length_eq, List.filter_append]
  have h4 : ((mkTables 4 1 (4 + (List.headD g 0 % 5)) (List.tail g)).1).filter
      (fun t => t.capacity == 4) =
      (mkTables 4 1 (4 + (List.headD g 0 % 5)) (List.tail g)).1 :=
    List.filter_eq_self.mpr fun t ht => by
      simp [mkTables_capacity 4 _ _ _ t ht]
  have h6 : ((mkTables 6 (1 + (4 + (List.headD g 0 % 5)))
        (12 - (4 + (List.headD g 0 % 5)))
        (mkTables 4 1 (4 + (List.headD g 0 % 5)) (List.tail g)).2).1).filter
      (fun t => t.capacity == 4) = [] :=
    List.filter_eq_nil_iff.mpr fun t ht => by
      simp [mkTables_capacity 6 _ _ _ t ht]
  rw [h4, h6, List.append_nil, mkTables_length]

theorem generateTables_filter6 (g : RNG) :
    (((generateTables g).1).filter fun t => t.capacity == 6).length =
      12 - (4 + List.headD g 0 % 5) := by
  have hp := (generateTables_spec g).filter (fun t => t.capacity == 6)
  rw [hp.length_eq, List.filter_append]
  have h4 : ((mkTables 4 1 (4 + (List.headD g 0 % 5)) (List.tail g)).1).filter
      (fun t => t.capacity == 6) = [] :=
    List.filter_eq_nil_iff.mpr fun t ht => by
      simp [mkTables_capacity 4 _ _ _ t ht]
  have h6 : ((mkTables 6 (1 + (4 + (List.headD g 0 % 5)))
        (12 - (4 + (List.headD g 0 % 5)))
        (mkTables 4 1 (4 + (List.headD g 0 % 5)) (List.tail g)).2).1).filter
      (fun t => t.capacity == 6) =
      (mkTables 6 (1 + (4 + (List.headD g 0 % 5)))
        (12 - (4 + (List.headD g 0 % 5)))
        (mkTables 4 1 (4 + (List.headD g 0 % 5)) (List.tail g)).2).1 :=
    List.filter_eq_self.mpr fun t ht => by
      simp [mkTables_capacity 6 _ _ _ t ht]
  rw [h4, h6, List.nil_append, mkTables_length]

theorem generateTables_map_id_perm (g : RNG) :
    List.Perm (((generateTables g).1).map Table.id) (List.range' 1 12) := by
  have hp := (generateTables_spec g).map Table.id
  rw [List.map_append, mkTables_map_id, mkTables_map_id] at hp
  have hb : List.headD g 0 % 5 < 5 := Nat.mod_lt _ (by decide)
  have hr : List.range' 1 (4 + (List.headD g 0 % 5)) ++
      List.range' (1 + (4 + (List.headD g 0 % 5))) (12 - (4 + (List.headD g 0 % 5))) =
      List.range' 1 12 := by
    rw [List.range'_append_1]
    congr 1
    omega
  rw [hr] at hp
  exact hp

theorem generateTables_length (g : RNG) : ((generateTables g).1).length = 12 := by
  have h := (generateTables_map_id_perm g).length_eq
  simpa using h

theorem generateTables_capacity (g : RNG) (t : Table)
    (ht : t ∈ (generateTables g).1) : t.capacity = 4 ∨ t.capacity = 6 := by
  have hm := (generateTables_spec g).mem_iff.mp ht
  rw [List.mem_append] at hm
  rcases hm with hm | hm
  · exact Or.inl (mkTables_capacity 4 _ _ _ t hm)
  · exact Or.inr (mkTables_capacity 6 _ _ _ t hm)

theorem getD_eq_getElem {α : Type} (l : List α) (i : Nat) (d : α)
    (h : i < l.length) : l.getD i d = l[i] := by
  rw [List.getD_eq_getElem?_getD, List.getElem?_eq_getElem h]
  rfl

theorem getElem_not_mem_eraseIdx {α : Type} (l : List α) (i : Nat)
    (hnd : l.Nodup) (hi : i < l.length) : l[i] ∉ l.eraseIdx i := by
  intro hmem
  rw [List.mem_eraseIdx_iff_getElem] at hmem
  obtain ⟨j, hj, hne, hEq⟩ := hmem
  exact hne ((hnd.getElem_inj_iff).mp hEq)

theorem generateRandomPrompt_partySize (g : RNG) :
    (generateRandomPrompt g).1.partySize = 4 ∨ (generateRandomPrompt g).1.partySize = 6 := by
  have h2 : (generateRandomPrompt g).1.partySize =
      ([4, 6] : List Nat).getD (List.headD g 0 % 2) 0 := rfl
  rcases Nat.mod_two_eq_zero_or_one (List.headD g 0) with h | h
  · left
    rw [h2, h]
    decide
  · right
    rw [h2, h]
    decide

theorem generateRandomPrompt_time_mem (g : RNG) :
    (generateRandomPrompt g).1.time ∈ AVAILABLE_TIMES := by
  have h : (generateRandomPrompt g).1.time =
      AVAILABLE_TIMES.getD ((drawNat (drawNat g 2).2 AVAILABLE_TIMES.length).1) "" := rfl
  rw [h]
  exact getD_mem_of_lt _ _ _ (drawNat_lt _ _ (by decide))

theorem genBookingsForTable_mem (tid gid : Nat) (pt : String) :
    ∀ (n : Nat) (slots : List String) (g : RNG) (b : BookingSlot),
      b ∈ (genBookingsForTable tid gid pt n slots g).1 →
      b.tableId = tid ∧ b.endTime = addMinutes b.startTime 90 ∧ b.startTime ∈ slots
  | 0, slots, g, b, h => by simp [genBookingsForTable] at h
  | Nat.succ n, slots, g, b, h => by
      cases he : slots.isEmpty with
      | true => simp [genBookingsForTable, he] at h
      | false =>
          have hlen : 0 < slots.length := by
            cases slots with
            | nil => simp at he
            | cons x xs => simp
          have hidx : (drawNat g slots.length).1 < slots.length :=
            drawNat_lt _ _ hlen
          have hmemtime : slots.getD (drawNat g slots.length).1 "" ∈ slots :=
            getD_mem_of_lt _ _ _ hidx
          have hsub : slots.eraseIdx (drawNat g slots.length).1 ⊆ slots :=
            List.eraseIdx_subset _ _
          have hrec := fun hb => genBookingsForTable_mem tid gid pt n
            (slots.eraseIdx (drawNat g slots.length).1) (drawNat g slots.length).2 b hb
          simp only [genBookingsForTable, he, Bool.false_eq_true, if_false] at h
          by_cases htg : tid = gid
          · rw [if_pos htg] at h
            by_cases hov : timesOverlap (slots.getD (drawNat g slots.length).1 "")
                (addMinutes (slots.getD (drawNat g slots.length).1 "") 90) pt
                (addMinutes pt 90) = true
            · rw [if_pos hov] at h
              obtain ⟨h1, h2, h3⟩ := hrec h
              exact ⟨h1, h2, hsub h3⟩
            · rw [if_neg hov] at h
              simp only [List.mem_cons] at h
              rcases h with h | h
              · subst h
                exact ⟨rfl, rfl, hmemtime⟩
              · obtain ⟨h1, h2, h3⟩ := hrec h
                exact ⟨h1, h2, hsub h3⟩
          · rw [if_neg htg] at h
            simp only [List.mem_cons] at h
            rcases h with h | h
            · subst h
              exact ⟨rfl, rfl, hmemtime⟩
            · obtain ⟨h1, h2, h3⟩ := hrec h
              exact ⟨h1, h2, hsub h3⟩

theorem genBookingsForTable_guaranteed (gid : Nat) (pt : String) :
    ∀ (n : Nat) (slots : List String) (g : RNG) (b : BookingSlot),
      b ∈ (genBookingsForTable gid gid pt n slots g).1 →
      timesOverlap b.startTime b.endTime pt (addMinutes pt 90) = false
  | 0, slots, g, b, h => by simp [genBookingsForTable] at h
  | Nat.succ n, slots, g, b, h => by
      cases he : slots.isEmpty with
      | true => simp [genBookingsForTable, he] at h
      | false =>
          have hrec := fun hb => genBookingsForTable_guaranteed gid pt n
            (slots.eraseIdx (drawNat g slots.length).1) (drawNat g slots.length).2 b hb
          simp only [genBookingsForTable, he, Bool.false_eq_true, if_false, if_true] at h
          by_cases hov : timesOverlap (slots.getD (drawNat g slots.length).1 "")
              (addMinutes (slots.getD (drawNat g slots.length).1 "") 90) pt
              (addMinutes pt 90) = true
          · rw [if_pos hov] at h
            exact hrec h
          · rw [if_neg hov] at h
            simp only [List.mem_cons] at h
            rcases h with h | h
            · subst h
              simpa using hov
            · exact hrec h

theorem genBookingsForTable_nodup (tid gid : Nat) (pt : String) :
    ∀ (n : Nat) (slots : List String) (g : RNG), slots.Nodup →
      (((genBookingsForTable tid gid pt n slots g).1).map BookingSlot.startTime).Nodup
  | 0, slots, g, _ => by simp [genBookingsForTable]
  | Nat.succ n, slots, g, hnd => by
      cases he : slots.isEmpty with
      | true => simp [genBookingsForTable, he]
      | false =>
          have hlen : 0 < slots.length := by
            cases slots with
            | nil => simp at he
            | cons x xs => simp
          have hidx : (drawNat g slots.length).1 < slots.length :=
            drawNat_lt _ _ hlen
          have hnd2 : (slots.eraseIdx (drawNat g slots.length).1).Nodup :=
            hnd.eraseIdx _
          have ih := genBookingsForTable_nodup tid gid pt n
            (slots.eraseIdx (drawNat g slots.length).1) (drawNat g slots.length).2 hnd2
          have hni : slots.getD (drawNat g slots.length).1 "" ∉
              ((genBookingsForTable tid gid pt n
                (slots.eraseIdx (drawNat g slots.length).1)
                (drawNat g slots.length).2).1).map BookingSlot.startTime := by
            intro hmem
            rw [List.mem_map] at hmem
            obtain ⟨b, hb, hbs⟩ := hmem
            have h3 := (genBookingsForTable_mem tid gid pt n _ _ b hb).2.2
            rw [hbs, getD_eq_getElem _ _ _ hidx] at h3
            exact getElem_not_mem_eraseIdx slots _ hnd hidx h3
          simp only [genBookingsForTable, he, Bool.false_eq_true, if_false]
          by_cases htg : tid = gid
          · rw [if_pos htg]
            by_cases hov : timesOverlap (slots.getD (drawNat g slots.length).1 "")
                (addMinutes (slots.getD (drawNat g slots.length).1 "") 90) pt
                (addMinutes pt 90) = true
            · rw [if_pos hov]
              exact ih
            · rw [if_neg hov]
              simp only [List.map_cons, List.nodup_cons]
              exact ⟨hni, ih⟩
          · rw [if_neg htg]
            simp only [List.map_cons, List.nodup_cons]
            exact ⟨hni, ih⟩

theorem genBookingsForTable_length (tid gid : Nat) (pt : String) :
    ∀ (n : Nat) (slots : List String) (g : RNG),
      ((genBookingsForTable tid gid pt n slots g).1).length ≤ n
  | 0, slots, g => by simp [genBookingsForTable]
  | Nat.succ n, slots, g => by
      cases he : slots.isEmpty with
      | true =>
          simp [genBookingsForTable, he]
      | false =>
          have ih := genBookingsForTable_length tid gid pt n
            (slots.eraseIdx (drawNat g slots.length).1) (drawNat g slots.length).2
          simp only [genBookingsForTable, he, Bool.false_eq_true, if_false]
          by_cases htg : tid = gid
          · rw [if_pos htg]
            by_cases hov : timesOverlap (slots.getD (drawNat g slots.length).1 "")
                (addMinutes (slots.getD (drawNat g slots.length).1 "") 90) pt
                (addMinutes pt 90) = true
            · rw [if_pos hov]
              exact Nat.le_succ_of_le ih
            · rw [if_neg hov]
              simpa using Nat.succ_le_succ ih
          · rw [if_neg htg]
            simpa using Nat.succ_le_succ ih

theorem genAllBookings_mem (gid : Nat) (pt : String) :
    ∀ (tables : List Table) (g : RNG) (b : BookingSlot),
      b ∈ (genAllBookings gid pt tables g).1 →
      ∃ t, t ∈ tables ∧ b.tableId = t.id ∧
        b.endTime = addMinutes b.startTime 90 ∧ b.startTime ∈ AVAILABLE_TIMES
  | [], g, b, h => by simp [genAllBookings] at h
  | t0 :: ts, g, b, h => by
      simp only [genAllBookings, List.mem_append] at h
      rcases h with h | h
      · obtain ⟨h1, h2, h3⟩ := genBookingsForTable_mem t0.id gid pt _ _ _ b h
        exact ⟨t0, List.mem_cons_self t0 ts, h1, h2, h3⟩
      · obtain ⟨t, ht, hrest⟩ := genAllBookings_mem gid pt ts _ b h
        exact ⟨t, List.mem_cons_of_mem t0 ht, hrest⟩

theorem genAllBookings_guaranteed (gid : Nat) (pt : String) :
    ∀ (tables : List Table) (g : RNG) (b : BookingSlot),
      b ∈ (genAllBookings gid pt tables g).1 → b.tableId = gid →
      timesOverlap b.startTime b.endTime pt (addMinutes pt 90) = false
  | [], g, b, h, _ => by simp [genAllBookings] at h
  | t0 :: ts, g, b, h, hbg => by
      simp only [genAllBookings, List.mem_append] at h
      rcases h with h | h
      · by_cases ht0 : t0.id = gid
        · rw [← ht0] at h
          exact genBookingsForTable_guaranteed t0.id pt _ _ _ b h
        · have h1 := (genBookingsForTable_mem t0.id gid pt _ _ _ b h).1
          exact absurd (h1 ▸ hbg) ht0
      · exact genAllBookings_guaranteed gid pt ts _ b h hbg

theorem genAllBookings_filter (gid : Nat) (pt : String) :
    ∀ (tables : List Table) (g : RNG) (t : Table),
      ((tables.map Table.id).Nodup) → t ∈ tables →
      (((genAllBookings gid pt tables g).1.filter fun b => b.tableId == t.id).length ≤ 3 ∧
       ((((genAllBookings gid pt tables g).1.filter fun b => b.tableId == t.id).map
          BookingSlot.startTime)).Nodup)
  | [], g, t, _, ht => by simp at ht
  | t0 :: ts, g, t, hnd, ht => by
      simp only [List.map_cons, List.nodup_cons] at hnd
      obtain ⟨hid0, hndts⟩ := hnd
      simp only [genAllBookings, List.filter_append]
      rcases List.mem_cons.mp ht with ht | ht
      · subst ht
        have hq : ((genBookingsForTable t.id gid pt (drawNat g 4).1 AVAILABLE_TIMES
            (drawNat g 4).2).1).filter (fun b => b.tableId == t.id) =
            (genBookingsForTable t.id gid pt (drawNat g 4).1 AVAILABLE_TIMES
            (drawNat g 4).2).1 :=
          List.filter_eq_self.mpr fun b hb => by
            simp [(genBookingsForTable_mem t.id gid pt _ _ _ b hb).1]
        have hr : ((genAllBookings gid pt ts
            (genBookingsForTable t.id gid pt (drawNat g 4).1 AVAILABLE_TIMES
              (drawNat g 4).2).2).1).filter (fun b => b.tableId == t.id) = [] :=
          List.filter_eq_nil_iff.mpr fun b hb => by
            obtain ⟨t2, ht2, hbid, -, -⟩ := genAllBookings_mem gid pt ts _ b hb
            have : b.tableId ≠ t.id := by
              rw [hbid]
              intro hEq
              exact hid0 (hEq ▸ List.mem_map_of_mem Table.id ht2)
            simpa using this
        rw [hq, hr, List.append_nil]
        constructor
        · have hle := genBookingsForTable_length t.id gid pt (drawNat g 4).1
            AVAILABLE_TIMES (drawNat g 4).2
          have h4 : (drawNat g 4).1 < 4 := drawNat_lt _ _ (by decide)
          omega
        · exact genBookingsForTable_nodup t.id gid pt _ _ _ (by decide)
      · have hq : ((genBookingsForTable t0.id gid pt (drawNat g 4).1 AVAILABLE_TIMES
            (drawNat g 4).2).1).filter (fun b => b.tableId == t.id) = [] :=
          List.filter_eq_nil_iff.mpr fun b hb => by
            have hbid := (genBookingsForTable_mem t0.id gid pt _ _ _ b hb).1
            have : b.tableId ≠ t.id := by
              rw [hbid]
              intro hEq
              exact hid0 (hEq ▸ List.mem_map_of_mem Table.id ht)
            simpa using this
        rw [hq, List.nil_append]
        exact genAllBookings_filter gid pt ts _ t hndts ht

theorem timesOverlap_comm (a b c d : String) :
    timesOverlap a b c d = timesOverlap c d a b := by
  simp only [timesOverlap]
  rw [Bool.and_comm]

theorem isTableAvailable_true_iff (tid : Nat) (time : String) (bs : List BookingSlot) :
    isTableAvailable tid time bs = true ↔
      ∀ b ∈ bs, b.tableId = tid →
        timesOverlap time (addMinutes time 90) b.startTime b.endTime = false := by
  unfold isTableAvailable
  rw [Bool.not_eq_true', List.any_eq_false]
  constructor
  · intro h b hb
    have hx := h b hb
    simp only [Bool.and_eq_true, beq_iff_eq, not_and, Bool.not_eq_true] at hx
    exact hx
  · intro h b hb
    simp only [Bool.and_eq_true, beq_iff_eq, not_and, Bool.not_eq_true]
    exact h b hb

theorem generateTables_ids_nodup (g : RNG) :
    (((generateTables g).1).map Table.id).Nodup :=
  ((generateTables_map_id_perm g).nodup_iff).mpr (List.nodup_range' 1 12)

theorem suitable_pos (g : RNG) :
    0 < ((generateTables g).1.filter fun t =>
        t.capacity == (generateRandomPrompt (generateTables g).2).1.partySize).length := by
  have hb : List.headD g 0 % 5 < 5 := Nat.mod_lt _ (by decide)
  rcases generateRandomPrompt_partySize (generateTables g).2 with h | h
  · rw [h]
    have h4 := generateTables_filter4 g
    omega
  · rw [h]
    have h6 := generateTables_filter6 g
    omega

theorem available_of_suitable (tables : List Table) (prompt : Prompt) (r : RNG)
    (hpos : 0 < (tables.filter fun t => t.capacity == prompt.partySize).length) :
    ∃ t ∈ tables, t.capacity = prompt.partySize ∧
      isTableAvailable t.id prompt.time
        (genAllBookings
          ((tables.filter fun t => t.capacity == prompt.partySize).getD
            (drawNat r (tables.filter fun t => t.capacity == prompt.partySize).length).1
            defaultTable).id
          prompt.time tables
          (drawNat r (tables.filter fun t => t.capacity == prompt.partySize).length).2).1 =
        true := by
  have hidx := drawNat_lt r _ hpos
  have hmem : (tables.filter fun t => t.capacity == prompt.partySize).getD
      (drawNat r (tables.filter fun t => t.capacity == prompt.partySize).length).1
      defaultTable ∈ tables.filter fun t => t.capacity == prompt.partySize :=
    getD_mem_of_lt _ _ _ hidx
  rw [List.mem_filter] at hmem
  refine ⟨_, hmem.1, by simpa using hmem.2, ?_⟩
  rw [isTableAvailable_true_iff]
  intro b hb hbid
  rw [timesOverlap_comm]
  exact genAllBookings_guaranteed _ _ tables _ b hb hbid

theorem per_table_core (tables : List Table) (gid : Nat) (pt : String) (r : RNG)
    (hnd : (tables.map Table.id).Nodup) :
    ∀ t ∈ tables,
      ((genAllBookings gid pt tables r).1.filter fun b => b.tableId == t.id).length ≤ 3 ∧
      (((genAllBookings gid pt tables r).1.filter fun b => b.tableId == t.id).map
        BookingSlot.startTime).Nodup ∧
      ∀ b ∈ (genAllBookings gid pt tables r).1.filter fun b => b.tableId == t.id,
        b.startTime ∈ AVAILABLE_TIMES := by
  intro t ht
  obtain ⟨h1, h2⟩ := genAllBookings_filter gid pt tables r t hnd ht
  refine ⟨h1, h2, ?_⟩
  intro b hb
  obtain ⟨-, -, -, -, hmem⟩ := genAllBookings_mem gid pt tables r b (List.mem_of_mem_filter hb)
  exact hmem

/-! ## Claim theorems -/

/-- C1: for every scenario returned by `generateExperimentData` (either
display-mode flag, any random draw) there is at least one table whose
capacity equals the prompt's party size and for which `isTableAvailable`
returns true at the prompt's time: the guaranteed table has no booking
overlapping the 90-minute prompt interval. -/
theorem scenario_has_available_suitable_table (sys : SystemType) (g : RNG) :
    ∃ t ∈ (generateExperimentData sys g).tables,
      t.capacity = (generateExperimentData sys g).prompt.partySize ∧
      isTableAvailable t.id (generateExperimentData sys g).prompt.time
        (generateExperimentData sys g).bookings = true :=
  available_of_suitable (generateTables g).1
    (generateRandomPrompt (generateTables g).2).1
    (generateRandomPrompt (generateTables g).2).2 (suitable_pos g)

/-- Witness for C1 at the concrete draw list `[]`. -/
theorem scenario_has_available_suitable_table_witness :
    ∃ t ∈ (generateExperimentData SystemType.coloured []).tables,
      t.capacity = (generateExperimentData SystemType.coloured []).prompt.partySize ∧
      isTableAvailable t.id (generateExperimentData SystemType.coloured []).prompt.time
        (generateExperimentData SystemType.coloured []).bookings = true :=
  scenario_has_available_suitable_table SystemType.coloured []

/-- C2: `isTableAvailable tid time bookings` is false iff some booking in the
list has the same table id and its half-open interval overlaps
`[time, time+90min)` on minute counts under the rule `s1 < e2 AND s2 < e1`;
it is true otherwise, in particular whenever no booking references `tid`,
including on the empty list. -/
theorem isTableAvailable_false_iff_overlap (tid : Nat) (time : String)
    (bookings : List BookingSlot) :
    (isTableAvailable tid time bookings = false ↔
      ∃ b ∈ bookings, b.tableId = tid ∧
        timeToMinutes time < timeToMinutes b.endTime ∧
        timeToMinutes b.startTime < timeToMinutes (addMinutes time 90)) ∧
    ((∀ b ∈ bookings, b.tableId ≠ tid) → isTableAvailable tid time bookings = true) ∧
    isTableAvailable tid time [] = true := by
  have hiff : isTableAvailable tid time bookings = false ↔
      ∃ b ∈ bookings, b.tableId = tid ∧
        timeToMinutes time < timeToMinutes b.endTime ∧
        timeToMinutes b.startTime < timeToMinutes (addMinutes time 90) := by
    unfold isTableAvailable
    rw [Bool.not_eq_false', List.any_eq_true]
    simp only [timesOverlap, Bool.and_eq_true, beq_iff_eq, decide_eq_true_eq]
  refine ⟨hiff, ?_, rfl⟩
  intro hno
  cases hv : isTableAvailable tid time bookings with
  | true => rfl
  | false =>
      obtain ⟨b, hb, hbid, -⟩ := hiff.mp hv
      exact absurd hbid (hno b hb)

/-- Witness for C2 at concrete inputs. -/
theorem isTableAvailable_false_iff_overlap_witness :
    ((isTableAvailable 1 "17:00" [⟨1, "17:00", "18:30"⟩] = false ↔
      ∃ b ∈ [(⟨1, "17:00", "18:30"⟩ : BookingSlot)], b.tableId = 1 ∧
        timeToMinutes "17:00" < timeToMinutes b.endTime ∧
        timeToMinutes b.startTime < timeToMinutes (addMinutes "17:00" 90)) ∧
     ((∀ b ∈ [(⟨1, "17:00", "18:30"⟩ : BookingSlot)], b.tableId ≠ 1) →
        isTableAvailable 1 "17:00" [⟨1, "17:00", "18:30"⟩] = true) ∧
     isTableAvailable 1 "17:00" [] = true) :=
  isTableAvailable_false_iff_overlap 1 "17:00" [⟨1, "17:00", "18:30"⟩]

/-- C3: `generateTables` always returns exactly 12 tables; the number of
capacity-4 tables is in [4,8], the number of capacity-6 tables is in [4,8],
the two counts sum to 12, and every capacity is 4 or 6. -/
theorem generateTables_count_bounds (g : RNG) :
    ((generateTables g).1).length = 12 ∧
    4 ≤ (((generateTables g).1).filter fun t => t.capacity == 4).length ∧
    (((generateTables g).1).filter fun t => t.capacity == 4).length ≤ 8 ∧
    4 ≤ (((generateTables g).1).filter fun t => t.capacity == 6).length ∧
    (((generateTables g).1).filter fun t => t.capacity == 6).length ≤ 8 ∧
    (((generateTables g).1).filter fun t => t.capacity == 4).length +
      (((generateTables g).1).filter fun t => t.capacity == 6).length = 12 ∧
    ∀ t ∈ (generateTables g).1, t.capacity = 4 ∨ t.capacity = 6 := by
  have h4 := generateTables_filter4 g
  have h6 := generateTables_filter6 g
  have hb : List.headD g 0 % 5 < 5 := Nat.mod_lt _ (by decide)
  refine ⟨generateTables_length g, ?_, ?_, ?_, ?_, ?_, generateTables_capacity g⟩ <;> omega

/-- Witness for C3 at the concrete draw list `[]`. -/
theorem generateTables_count_bounds_witness :
    ((generateTables []).1).length = 12 :=
  (generateTables_count_bounds []).1

/-- C4 counterexample: the claim as stated is false, because
`isTableAvailable 1 "16:00"` is `false`, not `true`: the candidate interval
`[16:00, 17:30)` overlaps the booking `[17:00, 18:30)` under the code's own
rule `s1 < e2 AND s2 < e1` (960 < 1110 and 1020 < 1050). -/
theorem isTableAvailable_boundary_cases_claim_false :
    ¬(isTableAvailable 1 "17:00" [⟨1, "17:00", "18:30"⟩] = false ∧
      isTableAvailable 1 "18:30" [⟨1, "17:00", "18:30"⟩] = true ∧
      isTableAvailable 1 "16:00" [⟨1, "17:00", "18:30"⟩] = true ∧
      isTableAvailable 2 "17:00" [⟨1, "17:00", "18:30"⟩] = true) := by decide

/-- C4 (amended): with bookings `[{table 1, 17:00-18:30}]`, table 1 is
unavailable at 17:00, available again exactly at the half-open boundary
18:30, unavailable at 16:00 (the 90-minute candidate interval
`[16:00, 17:30)` overlaps the booking), and table 2 is available at
17:00. -/
theorem isTableAvailable_boundary_cases :
    isTableAvailable 1 "17:00" [⟨1, "17:00", "18:30"⟩] = false ∧
    isTableAvailable 1 "18:30" [⟨1, "17:00", "18:30"⟩] = true ∧
    isTableAvailable 1 "16:00" [⟨1, "17:00", "18:30"⟩] = false ∧
    isTableAvailable 2 "17:00" [⟨1, "17:00", "18:30"⟩] = true := by decide

/-- C5: in every execution of `generateExperimentData`, the set of tables
whose capacity equals the prompt's party size is non-empty, and the random
index used to select the guaranteed table is strictly below its length. -/
theorem suitableTables_nonempty (g : RNG) :
    ((generateTables g).1.filter fun t =>
        t.capacity == (generateRandomPrompt (generateTables g).2).1.partySize) ≠ [] ∧
    (drawNat (generateRandomPrompt (generateTables g).2).2
        ((generateTables g).1.filter fun t =>
          t.capacity == (generateRandomPrompt (generateTables g).2).1.partySize).length).1 <
      ((generateTables g).1.filter fun t =>
        t.capacity == (generateRandomPrompt (generateTables g).2).1.partySize).length :=
  ⟨List.ne_nil_of_length_pos (suitable_pos g), drawNat_lt _ _ (suitable_pos g)⟩

/-- Witness for C5 at the concrete draw list `[]`. -/
theorem suitableTables_nonempty_witness :
    ((generateTables []).1.filter fun t =>
        t.capacity == (generateRandomPrompt (generateTables []).2).1.partySize) ≠ [] :=
  (suitableTables_nonempty []).1

/-- C6: `addMinutes "21:00" 90 = "22:30"`, and `addMinutes "23:30" 90`
wraps past midnight modulo 24 hours to the zero-padded `"01:00"`. -/
theorem addMinutes_examples :
    addMinutes "21:00" 90 = "22:30" ∧ addMinutes "23:30" 90 = "01:00" := by decide

/-- C7: every booking of a generated scenario references the id of a table
present in the scenario's table list, and its end time is its start time
plus the fixed 90-minute service duration. -/
theorem bookings_reference_existing_tables (sys : SystemType) (g : RNG) :
    ∀ b ∈ (generateExperimentData sys g).bookings,
      b.tableId ∈ ((generateExperimentData sys g).tables).map Table.id ∧
      b.endTime = addMinutes b.startTime 90 := by
  intro b hb
  obtain ⟨t, ht, hbid, hend, -⟩ := genAllBookings_mem _ _ _ _ b hb
  refine ⟨?_, hend⟩
  rw [hbid]
  exact List.mem_map_of_mem Table.id ht

/-- Witness for C7 at a concrete draw producing a non-empty booking list. -/
theorem bookings_reference_existing_tables_witness :
    (⟨2, "17:00", "18:30"⟩ : BookingSlot) ∈
      (generateExperimentData SystemType.coloured
        (List.replicate 25 0 ++ [8, 0, 1])).bookings ∧
    ((2 : Nat) ∈ ((generateExperimentData SystemType.coloured
        (List.replicate 25 0 ++ [8, 0, 1])).tables).map Table.id ∧
      ("18:30" : String) = addMinutes "17:00" 90) :=
  ⟨by decide,
   bookings_reference_existing_tables SystemType.coloured
     (List.replicate 25 0 ++ [8, 0, 1]) ⟨2, "17:00", "18:30"⟩ (by decide)⟩

/-- C8: for every table of a generated scenario, the bookings referencing
its id number at most 3, their start times are pairwise distinct, and every
start time belongs to the fixed nine-slot set `AVAILABLE_TIMES`. -/
theorem per_table_bookings_bounded (sys : SystemType) (g : RNG) :
    ∀ t ∈ (generateExperimentData sys g).tables,
      ((generateExperimentData sys g).bookings.filter fun b =>
          b.tableId == t.id).length ≤ 3 ∧
      (((generateExperimentData sys g).bookings.filter fun b =>
          b.tableId == t.id).map BookingSlot.startTime).Nodup ∧
      ∀ b ∈ (generateExperimentData sys g).bookings.filter fun b => b.tableId == t.id,
        b.startTime ∈ AVAILABLE_TIMES :=
  per_table_core (generateTables g).1 _ _ _ (generateTables_ids_nodup g)

/-- Witness for C8 at a concrete draw and table. -/
theorem per_table_bookings_bounded_witness :
    (⟨2, TableShape.square, 4⟩ : Table) ∈
      (generateExperimentData SystemType.coloured
        (List.replicate 25 0 ++ [8, 0, 1])).tables ∧
    ((generateExperimentData SystemType.coloured
        (List.replicate 25 0 ++ [8, 0, 1])).bookings.filter fun b =>
        b.tableId == (⟨2, TableShape.square, 4⟩ : Table).id).length ≤ 3 :=
  ⟨by decide,
   (per_table_bookings_bounded SystemType.coloured (List.replicate 25 0 ++ [8, 0, 1])
      ⟨2, TableShape.square, 4⟩ (by decide)).1⟩

/-- C9: the twelve tables returned by `generateTables` have pairwise
distinct ids forming exactly the set {1, …, 12}, and the final shuffle is a
permutation that neither duplicates nor drops any table. -/
theorem generateTables_ids_distinct (g : RNG) :
    List.Perm (((generateTables g).1).map Table.id) (List.range' 1 12) ∧
    (((generateTables g).1).map Table.id).Nodup ∧
    ∀ (n : Nat) (l : List Table) (h : RNG), List.Perm (shuffleFrom n l h).1 l :=
  ⟨generateTables_map_id_perm g, generateTables_ids_nodup g,
   fun n l h => shuffleFrom_perm n l h⟩

/-- Witness for C9 at the concrete draw list `[]`. -/
theorem generateTables_ids_distinct_witness :
    List.Perm (((generateTables []).1).map Table.id) (List.range' 1 12) :=
  (generateTables_ids_distinct []).1

/-- C10: adding the 90-minute service duration to any bookable slot never
wraps past midnight — `timeToMinutes (addMinutes t 90) = timeToMinutes t + 90`
on all of `AVAILABLE_TIMES` — and consequently every generated booking has a
non-empty interval: `timeToMinutes startTime < timeToMinutes endTime`. -/
theorem addMinutes_no_wrap_on_slots :
    (∀ t ∈ AVAILABLE_TIMES, timeToMinutes (addMinutes t 90) = timeToMinutes t + 90) ∧
    ∀ (sys : SystemType) (g : RNG), ∀ b ∈ (generateExperimentData sys g).bookings,
      timeToMinutes b.startTime < timeToMinutes b.endTime := by
  have hslots : ∀ t ∈ AVAILABLE_TIMES,
      timeToMinutes (addMinutes t 90) = timeToMinutes t + 90 := by decide
  refine ⟨hslots, ?_⟩
  intro sys g b hb
  obtain ⟨t, -, -, hend, hstart⟩ := genAllBookings_mem _ _ _ _ b hb
  rw [hend, hslots b.startTime hstart]
  omega

/-- Witness for C10 at concrete inputs. -/
theorem addMinutes_no_wrap_on_slots_witness :
    ("17:00" ∈ AVAILABLE_TIMES ∧
      timeToMinutes (addMinutes "17:00" 90) = timeToMinutes "17:00" + 90) ∧
    ((⟨2, "17:00", "18:30"⟩ : BookingSlot) ∈
        (generateExperimentData SystemType.coloured
          (List.replicate 25 0 ++ [8, 0, 1])).bookings ∧
      timeToMinutes "17:00" < timeToMinutes "18:30") :=
  ⟨⟨by decide, addMinutes_no_wrap_on_slots.1 "17:00" (by decide)⟩,
   ⟨by decide, addMinutes_no_wrap_on_slots.2 SystemType.coloured
      (List.replicate 25 0 ++ [8, 0, 1]) ⟨2, "17:00", "18:30"⟩ (by decide)⟩⟩
